import Mathlib

/-!
Verification development for the iccad dynamic 64-bit integer arithmetic
counter (an Intel Pin instrumentation tool).

The repository contains two variants of the same engine:
  * src/int64_ops.cpp          — scalar classifier (ADD/SUB/MUL/DIV) plus a
                                 packed 64-bit-lane (SIMD) sanity-check path;
  * src/installation/int64_ops.cpp — extended scalar classifier
                                 (ADD/SUB/ADC/SBB/MUL/MULX/ADCX/ADOX/DIV),
                                 region-activation modes (whole program,
                                 address-triggered, marker-triggered) and
                                 end-of-run aggregation/reporting.

We shallow-embed the instruction descriptor facts the code reads through the
Pin API (operand list, read/written registers, memory operands, stack flags,
static address, is-return flag) and translate each classification / counting /
region function into a Lean function, then prove the specification claims
about those functions.  64-bit counters are modelled as `Nat` with explicit
reduction modulo `2 ^ 64` wherever the C++ `UINT64` arithmetic can wrap.
-/

namespace Iccad

/-- Model of Pin `REG` identities, split by the classes the code queries:
`REG_is_gr64` (full 64-bit GPRs, including RSP/RBP), narrower
stack-pointer/frame-pointer forms (ESP/EBP/SP/BP/SPL/BPL — not gr64),
other narrow GPRs, MMX/XMM/YMM/ZMM vector registers, AVX-512 k-mask
registers, and anything else. -/
inductive Reg where
  | RSP | RBP
  | gr64 (n : Nat)
  | ESP | EBP | SP | BP | SPL | BPL
  | gr32 (n : Nat)
  | gr16 (n : Nat)
  | gr8 (n : Nat)
  | mm (n : Nat)
  | xmm (n : Nat)
  | ymm (n : Nat)
  | zmm (n : Nat)
  | kmask (n : Nat)
  | otherReg (n : Nat)
deriving DecidableEq, Repr

/-- Pin `REG_is_gr64`: full 64-bit general-purpose registers
(RSP and RBP are 64-bit GPRs too). -/
def REG_is_gr64 : Reg → Bool
  | .RSP => true
  | .RBP => true
  | .gr64 _ => true
  | _ => false

/-- Pin `REG_is_mm`. -/
def REG_is_mm : Reg → Bool
  | .mm _ => true
  | _ => false

/-- Pin `REG_is_xmm`. -/
def REG_is_xmm : Reg → Bool
  | .xmm _ => true
  | _ => false

/-- Pin `REG_is_ymm`. -/
def REG_is_ymm : Reg → Bool
  | .ymm _ => true
  | _ => false

/-- Pin `REG_is_zmm`. -/
def REG_is_zmm : Reg → Bool
  | .zmm _ => true
  | _ => false

/-- Pin `REG_is_k_mask`. -/
def REG_is_k_mask : Reg → Bool
  | .kmask _ => true
  | _ => false

/-- Pin `REG_Size` in bytes (only the vector sizes are consulted by the code). -/
def REG_Size : Reg → Nat
  | .RSP => 8
  | .RBP => 8
  | .gr64 _ => 8
  | .ESP => 4
  | .EBP => 4
  | .SP => 2
  | .BP => 2
  | .SPL => 1
  | .BPL => 1
  | .gr32 _ => 4
  | .gr16 _ => 2
  | .gr8 _ => 1
  | .mm _ => 8
  | .xmm _ => 16
  | .ymm _ => 32
  | .zmm _ => 64
  | .kmask _ => 8
  | .otherReg _ => 0

/-- XED instruction-class (opcode family) tags consulted by either tool. -/
inductive Iclass where
  | ADD | SUB | ADC | SBB | IMUL | MUL | MULX | ADCX | ADOX | IDIV | DIV
  | PADDQ | VPADDQ | PSUBQ | VPSUBQ
  | OTHER (n : Nat)
deriving DecidableEq, Repr

/-- One memory operand: `INS_MemoryOperandIsRead/IsWritten/Size`. -/
structure MemOperand where
  isRead : Bool
  isWritten : Bool
  size : Nat
deriving DecidableEq, Repr

/-- The instruction-descriptor facts both tools read through the Pin API:
opcode class, per-operand immediate flags (`INS_OperandCount` /
`INS_OperandIsImmediate`), read registers (`INS_MaxNumRRegs` / `INS_RegR`),
written registers (`INS_MaxNumWRegs` / `INS_RegW`), memory operands
(`INS_MemoryOperandCount` and per-operand queries), the stack access flags
(`INS_IsStackRead` / `INS_IsStackWrite`), the static address (`INS_Address`)
and the return flag (`INS_IsRet`). -/
structure INS where
  opcode : Iclass
  operandIsImmediate : List Bool
  regReads : List Reg
  regWrites : List Reg
  memOps : List MemOperand
  isStackRead : Bool
  isStackWrite : Bool
  address : Nat
  isRet : Bool
deriving DecidableEq, Repr

/-- `2 ^ 64`: the modulus of the C++ `UINT64` counter arithmetic. -/
def M64 : Nat := 2 ^ 64

end Iccad

namespace Int64Ops

open Iccad

/-- `kExcludeImmediates` configuration constant of src/int64_ops.cpp. -/
def kExcludeImmediates : Bool := true

/-- `kExcludeStack` configuration constant of src/int64_ops.cpp. -/
def kExcludeStack : Bool := true

/-- `kCountMemDestRmw` configuration constant of src/int64_ops.cpp. -/
def kCountMemDestRmw : Bool := true

/-- `Is64Gpr` of src/int64_ops.cpp. -/
def Is64Gpr (r : Reg) : Bool := REG_is_gr64 r

/-- `IsStackReg` of src/int64_ops.cpp: exactly RSP or RBP. -/
def IsStackReg (r : Reg) : Bool := r == .RSP || r == .RBP

/-- `Is64ArithOpcode` of src/int64_ops.cpp. -/
def Is64ArithOpcode (opc : Iclass) : Bool :=
  opc == .ADD || opc == .SUB ||
  opc == .IMUL || opc == .MUL ||
  opc == .IDIV || opc == .DIV

/-- `IsSimdAddQ` of src/int64_ops.cpp. -/
def IsSimdAddQ (opc : Iclass) : Bool := opc == .PADDQ || opc == .VPADDQ

/-- `IsSimdSubQ` of src/int64_ops.cpp. -/
def IsSimdSubQ (opc : Iclass) : Bool := opc == .PSUBQ || opc == .VPSUBQ

/-- `HasImmediate` of src/int64_ops.cpp: under the exclude-immediates
configuration, whether any operand is an immediate. -/
def HasImmediate (ins : INS) : Bool :=
  if !kExcludeImmediates then false
  else ins.operandIsImmediate.any (fun b => b)

/-- `TouchesStack` of src/int64_ops.cpp: under the exclude-stack
configuration, whether any read or written register is RSP/RBP, or the
instruction performs a stack memory read or write. -/
def TouchesStack (ins : INS) : Bool :=
  if !kExcludeStack then false
  else
    ins.regReads.any IsStackReg || ins.regWrites.any IsStackReg ||
    ins.isStackRead || ins.isStackWrite

/-- `Has64RegRead` of src/int64_ops.cpp. -/
def Has64RegRead (ins : INS) : Bool :=
  ins.regReads.any (fun r => Is64Gpr r && !IsStackReg r)

/-- `Has64RegWrite` of src/int64_ops.cpp. -/
def Has64RegWrite (ins : INS) : Bool :=
  ins.regWrites.any (fun r => Is64Gpr r && !IsStackReg r)

/-- `HasMemRead8` of src/int64_ops.cpp. -/
def HasMemRead8 (ins : INS) : Bool :=
  ins.memOps.any (fun m => m.isRead && m.size == 8)

/-- `HasMemWrite8` of src/int64_ops.cpp. -/
def HasMemWrite8 (ins : INS) : Bool :=
  ins.memOps.any (fun m => m.isWritten && m.size == 8)

/-- Whether a register is one of the vector classes consulted by
`QwordLanesWritten` (MMX/XMM/YMM/ZMM). -/
def IsVecReg (r : Reg) : Bool :=
  REG_is_mm r || REG_is_xmm r || REG_is_ymm r || REG_is_zmm r

/-- `QwordLanesWritten` of src/int64_ops.cpp: the widest written vector
register in bytes (0 if none), defaulted to 16 (XMM), divided by 8. -/
def QwordLanesWritten (ins : INS) : Nat :=
  let maxBytes :=
    ins.regWrites.foldl
      (fun mb r => if IsVecReg r then max mb (REG_Size r) else mb) 0
  let maxBytes := if maxBytes == 0 then 16 else maxBytes
  maxBytes / 8

/-- `FirstKMaskRead` of src/int64_ops.cpp: the first AVX-512 k-mask register
among the read registers, if any (REG_INVALID_ becomes `none`). -/
def FirstKMaskRead (ins : INS) : Option Reg :=
  ins.regReads.find? REG_is_k_mask

/-- `IsRegReg64Arith` of src/int64_ops.cpp: no memory operand, no immediate,
no stack traffic, and a non-stack 64-bit GPR is both read and written. -/
def IsRegReg64Arith (ins : INS) : Bool :=
  if ins.memOps.length != 0 then false
  else if HasImmediate ins then false
  else if TouchesStack ins then false
  else Has64RegRead ins && Has64RegWrite ins

/-- `IsRegMem64Arith` of src/int64_ops.cpp: no immediate, no stack traffic,
and either the mem→reg form or (if enabled) the reg→mem RMW form. -/
def IsRegMem64Arith (ins : INS) : Bool :=
  if HasImmediate ins then false
  else if TouchesStack ins then false
  else
    let mem_r8 := HasMemRead8 ins
    let mem_w8 := HasMemWrite8 ins
    if mem_r8 && Has64RegWrite ins && !mem_w8 then true
    else if kCountMemDestRmw && mem_w8 && Has64RegRead ins then true
    else false

/-- Scalar bucket family of src/int64_ops.cpp (IMUL merged into MUL,
IDIV merged into DIV). -/
inductive ArithFamily where
  | ADD | SUB | MUL | DIV
deriving DecidableEq, Repr

/-- Bucket locality attribute. -/
inductive Locality where
  | RegReg | RegMem
deriving DecidableEq, Repr

/-- SIMD bucket family of src/int64_ops.cpp. -/
inductive SimdFamily where
  | AddQ | SubQ
deriving DecidableEq, Repr

/-- Classification outcome of the `Instruction` instrumentation routine:
which analysis callback gets bound to the instruction, together with the
instrumentation-time arguments (lane count, and the k-mask register to be
read at run time for the masked variants). -/
inductive Bucket where
  | scalar (f : ArithFamily) (l : Locality)
  | simd (f : SimdFamily) (masked : Bool) (lanes : Nat) (km : Option Reg)
deriving DecidableEq, Repr

/-- The classification logic of the `Instruction` instrumentation routine of
src/int64_ops.cpp: the SIMD packed path is tested first and returns early;
otherwise the scalar path requires a tracked opcode, tests reg-reg before
reg-mem, and maps the opcode to its family callback. -/
def Instruction (ins : INS) : Option Bucket :=
  let opc := ins.opcode
  if IsSimdAddQ opc || IsSimdSubQ opc then
    let lanes := QwordLanesWritten ins
    let km := FirstKMaskRead ins
    let masked := km.isSome
    if IsSimdAddQ opc then some (.simd .AddQ masked lanes km)
    else some (.simd .SubQ masked lanes km)
  else if !Is64ArithOpcode opc then none
  else
    let rr := IsRegReg64Arith ins
    let rm := !rr && IsRegMem64Arith ins
    if !rr && !rm then none
    else
      let loc := if rr then Locality.RegReg else Locality.RegMem
      match opc with
      | .ADD => some (.scalar .ADD loc)
      | .SUB => some (.scalar .SUB loc)
      | .IMUL | .MUL => some (.scalar .MUL loc)
      | .IDIV | .DIV => some (.scalar .DIV loc)
      | _ => none

/-- Per-thread counter block `Cnts` of src/int64_ops.cpp (the C++ fields are
`UINT64`; here each field is a `Nat` kept below `2 ^ 64` by taking every
update modulo `M64`). -/
structure Cnts where
  add_rr : Nat := 0
  sub_rr : Nat := 0
  mul_rr : Nat := 0
  div_rr : Nat := 0
  add_rm : Nat := 0
  sub_rm : Nat := 0
  mul_rm : Nat := 0
  div_rm : Nat := 0
  simd_addq_insn : Nat := 0
  simd_addq_ops : Nat := 0
  simd_subq_insn : Nat := 0
  simd_subq_ops : Nat := 0
deriving DecidableEq, Repr

/-- Analysis callback `AddRR` of src/int64_ops.cpp. -/
def AddRR (c : Cnts) : Cnts := { c with add_rr := (c.add_rr + 1) % M64 }

/-- Analysis callback `SubRR` of src/int64_ops.cpp. -/
def SubRR (c : Cnts) : Cnts := { c with sub_rr := (c.sub_rr + 1) % M64 }

/-- Analysis callback `MulRR` of src/int64_ops.cpp. -/
def MulRR (c : Cnts) : Cnts := { c with mul_rr := (c.mul_rr + 1) % M64 }

/-- Analysis callback `DivRR` of src/int64_ops.cpp. -/
def DivRR (c : Cnts) : Cnts := { c with div_rr := (c.div_rr + 1) % M64 }

/-- Analysis callback `AddRM` of src/int64_ops.cpp. -/
def AddRM (c : Cnts) : Cnts := { c with add_rm := (c.add_rm + 1) % M64 }

/-- Analysis callback `SubRM` of src/int64_ops.cpp. -/
def SubRM (c : Cnts) : Cnts := { c with sub_rm := (c.sub_rm + 1) % M64 }

/-- Analysis callback `MulRM` of src/int64_ops.cpp. -/
def MulRM (c : Cnts) : Cnts := { c with mul_rm := (c.mul_rm + 1) % M64 }

/-- Analysis callback `DivRM` of src/int64_ops.cpp. -/
def DivRM (c : Cnts) : Cnts := { c with div_rm := (c.div_rm + 1) % M64 }

/-- Analysis callback `SimdAddQ` of src/int64_ops.cpp: one instruction,
`lanes` lane-ops. -/
def SimdAddQ (c : Cnts) (lanes : Nat) : Cnts :=
  { c with simd_addq_insn := (c.simd_addq_insn + 1) % M64,
           simd_addq_ops := (c.simd_addq_ops + lanes) % M64 }

/-- Analysis callback `SimdSubQ` of src/int64_ops.cpp. -/
def SimdSubQ (c : Cnts) (lanes : Nat) : Cnts :=
  { c with simd_subq_insn := (c.simd_subq_insn + 1) % M64,
           simd_subq_ops := (c.simd_subq_ops + lanes) % M64 }

/-- The mask-scan loop shared by `SimdAddQMasked`/`SimdSubQMasked` of
src/int64_ops.cpp: `for (i = 0; i < lanes; i++) active += (m >> i) & 1`. -/
def maskActive (m : Nat) : Nat → Nat
  | 0 => 0
  | l + 1 => maskActive m l + ((m >>> l) &&& 1)

/-- Analysis callback `SimdAddQMasked` of src/int64_ops.cpp: one instruction,
and one lane-op per set bit of the k-mask value below `lanes`. -/
def SimdAddQMasked (c : Cnts) (lanes : Nat) (kbits : Nat) : Cnts :=
  let active := maskActive kbits lanes
  { c with simd_addq_insn := (c.simd_addq_insn + 1) % M64,
           simd_addq_ops := (c.simd_addq_ops + active) % M64 }

/-- Analysis callback `SimdSubQMasked` of src/int64_ops.cpp. -/
def SimdSubQMasked (c : Cnts) (lanes : Nat) (kbits : Nat) : Cnts :=
  let active := maskActive kbits lanes
  { c with simd_subq_insn := (c.simd_subq_insn + 1) % M64,
           simd_subq_ops := (c.simd_subq_ops + active) % M64 }

/-- The mem→reg disjunct of `IsRegMem64Arith` of src/int64_ops.cpp
(spec: the load-combine form): an 8-byte memory read, a non-stack 64-bit
GPR write, and no 8-byte memory write. -/
def LoadCombine (ins : INS) : Bool :=
  HasMemRead8 ins && Has64RegWrite ins && !HasMemWrite8 ins

/-- The reg→mem RMW disjunct of `IsRegMem64Arith` of src/int64_ops.cpp
(spec: the store-combine form): an 8-byte memory write and a non-stack
64-bit GPR read. -/
def StoreCombine (ins : INS) : Bool :=
  HasMemWrite8 ins && Has64RegRead ins

end Int64Ops

namespace SpecSide

open Iccad

/-- Population count of a natural number (number of set bits); the spec-side
`popcount` used by the lane-masking rule of spec section 4.1. -/
def popcount (n : Nat) : Nat :=
  if h : n = 0 then 0 else n % 2 + popcount (n / 2)
decreasing_by exact Nat.div_lt_self (Nat.pos_of_ne_zero h) (by decide)

/-- The widest written vector-register byte size of a descriptor
(0 when no vector register is written); spec section 4.1, packed path. -/
def widestVecWrittenBytes (ins : INS) : Nat :=
  ((ins.regWrites.filter Int64Ops.IsVecReg).map REG_Size).foldl max 0

/-- Spec-side lane count (spec section 4.1, packed path, rule 1): the widest
written vector-register byte size divided by 8, defaulting to 2 lanes when
no vector register write is observed. -/
def specLanes (ins : INS) : Nat :=
  if ins.regWrites.filter Int64Ops.IsVecReg = [] then 2
  else widestVecWrittenBytes ins / 8

end SpecSide

namespace Installation

open Iccad

/-- Scalar bucket family of src/installation/int64_ops.cpp (IMUL merged into
MUL, IDIV merged into DIV; the carry/extended variants kept separate). -/
inductive Fam where
  | ADD | SUB | ADC | SBB | MUL | MULX | ADCX | ADOX | DIV
deriving DecidableEq, Repr

/-- Bucket locality attribute of src/installation/int64_ops.cpp
(`_rr` vs `_rm` counter fields). -/
inductive Locality where
  | RegReg | RegMem
deriving DecidableEq, Repr

/-- Per-thread counter block `Cnts` of src/installation/int64_ops.cpp
(`UINT64` fields, modelled as `Nat` updated modulo `M64`). -/
structure Cnts where
  add_rr : Nat := 0
  sub_rr : Nat := 0
  adc_rr : Nat := 0
  sbb_rr : Nat := 0
  mul_rr : Nat := 0
  mulx_rr : Nat := 0
  adcx_rr : Nat := 0
  adox_rr : Nat := 0
  div_rr : Nat := 0
  add_rm : Nat := 0
  sub_rm : Nat := 0
  adc_rm : Nat := 0
  sbb_rm : Nat := 0
  mul_rm : Nat := 0
  mulx_rm : Nat := 0
  adcx_rm : Nat := 0
  adox_rm : Nat := 0
  div_rm : Nat := 0
deriving DecidableEq, Repr

/-- `ThreadState` of src/installation/int64_ops.cpp: the per-thread counter
block plus the region-activation flag (initially `false`). -/
structure ThreadState where
  cnts : Cnts := {}
  active : Bool := false
deriving DecidableEq, Repr

/-- The `Mode` enumeration of src/installation/int64_ops.cpp. -/
inductive Mode where
  | WHOLE | ADDRESS | MARKER
deriving DecidableEq, Repr

/-- `Counting` of src/installation/int64_ops.cpp: whole-program mode counts
unconditionally; otherwise the per-thread `active` flag gates counting. -/
def Counting (mode : Mode) (st : ThreadState) : Bool :=
  mode == .WHOLE || st.active

/-- `StartRegion` of src/installation/int64_ops.cpp. -/
def StartRegion (st : ThreadState) : ThreadState := { st with active := true }

/-- `StopRegion` of src/installation/int64_ops.cpp (only flips the flag when
it was set; an inactive state is left untouched). -/
def StopRegion (st : ThreadState) : ThreadState :=
  if st.active then { st with active := false } else st

/-- `IsStack` of src/installation/int64_ops.cpp: exactly RSP or RBP. -/
def IsStack (r : Reg) : Bool := r == .RSP || r == .RBP

/-- `HasImm` of src/installation/int64_ops.cpp. -/
def HasImm (ins : INS) : Bool := ins.operandIsImmediate.any (fun b => b)

/-- `TouchesStack` of src/installation/int64_ops.cpp. -/
def TouchesStack (ins : INS) : Bool :=
  ins.regReads.any IsStack || ins.regWrites.any IsStack ||
  ins.isStackRead || ins.isStackWrite

/-- `Has64R` of src/installation/int64_ops.cpp. -/
def Has64R (ins : INS) : Bool :=
  ins.regReads.any (fun r => REG_is_gr64 r && !IsStack r)

/-- `Has64W` of src/installation/int64_ops.cpp. -/
def Has64W (ins : INS) : Bool :=
  ins.regWrites.any (fun r => REG_is_gr64 r && !IsStack r)

/-- `MemRead8` of src/installation/int64_ops.cpp. -/
def MemRead8 (ins : INS) : Bool :=
  ins.memOps.any (fun m => m.isRead && m.size == 8)

/-- `MemWrite8` of src/installation/int64_ops.cpp. -/
def MemWrite8 (ins : INS) : Bool :=
  ins.memOps.any (fun m => m.isWritten && m.size == 8)

/-- `IsALU64` of src/installation/int64_ops.cpp: the eleven tracked opcode
classes. -/
def IsALU64 (opc : Iclass) : Bool :=
  match opc with
  | .ADD | .SUB | .ADC | .SBB | .IMUL | .MUL
  | .MULX | .ADCX | .ADOX | .IDIV | .DIV => true
  | _ => false

/-- `IsRegReg64` of src/installation/int64_ops.cpp. -/
def IsRegReg64 (ins : INS) : Bool :=
  ins.memOps.length == 0 &&
  !HasImm ins && !TouchesStack ins &&
  Has64R ins && Has64W ins

/-- `IsRegMem64` of src/installation/int64_ops.cpp: the mem→reg (load)
form or the mem-destination read-modify-write (store) form. -/
def IsRegMem64 (ins : INS) : Bool :=
  if HasImm ins || TouchesStack ins then false
  else
    let mr := MemRead8 ins && Has64W ins && !MemWrite8 ins
    let rmw := MemWrite8 ins && Has64R ins
    mr || rmw

/-- The mem→reg disjunct `mr` of `IsRegMem64` of
src/installation/int64_ops.cpp (spec: the load-combine form). -/
def LoadCombine (ins : INS) : Bool :=
  MemRead8 ins && Has64W ins && !MemWrite8 ins

/-- The RMW disjunct `rmw` of `IsRegMem64` of
src/installation/int64_ops.cpp (spec: the store-combine form). -/
def StoreCombine (ins : INS) : Bool :=
  MemWrite8 ins && Has64R ins

/-- The classification logic of `InstrumentArith` of
src/installation/int64_ops.cpp: which counter callback (family and
locality) gets bound to the instruction, if any. -/
def InstrumentArith (ins : INS) : Option (Fam × Locality) :=
  if !IsALU64 ins.opcode then none
  else if HasImm ins then none
  else
    let rr := IsRegReg64 ins
    let rm := !rr && IsRegMem64 ins
    if !rr && !rm then none
    else
      let loc := if rr then Locality.RegReg else Locality.RegMem
      match ins.opcode with
      | .ADD => some (.ADD, loc)
      | .SUB => some (.SUB, loc)
      | .ADC => some (.ADC, loc)
      | .SBB => some (.SBB, loc)
      | .MUL | .IMUL => some (.MUL, loc)
      | .MULX => some (.MULX, loc)
      | .ADCX => some (.ADCX, loc)
      | .ADOX => some (.ADOX, loc)
      | .DIV | .IDIV => some (.DIV, loc)
      | _ => none

/-- The `name++` update performed by the counter stub of the given family
and locality (the `DEF_COUNTER` macro expansions of
src/installation/int64_ops.cpp). -/
def counterBump (f : Fam) (l : Locality) (c : Cnts) : Cnts :=
  match f, l with
  | .ADD, .RegReg => { c with add_rr := (c.add_rr + 1) % M64 }
  | .SUB, .RegReg => { c with sub_rr := (c.sub_rr + 1) % M64 }
  | .ADC, .RegReg => { c with adc_rr := (c.adc_rr + 1) % M64 }
  | .SBB, .RegReg => { c with sbb_rr := (c.sbb_rr + 1) % M64 }
  | .MUL, .RegReg => { c with mul_rr := (c.mul_rr + 1) % M64 }
  | .MULX, .RegReg => { c with mulx_rr := (c.mulx_rr + 1) % M64 }
  | .ADCX, .RegReg => { c with adcx_rr := (c.adcx_rr + 1) % M64 }
  | .ADOX, .RegReg => { c with adox_rr := (c.adox_rr + 1) % M64 }
  | .DIV, .RegReg => { c with div_rr := (c.div_rr + 1) % M64 }
  | .ADD, .RegMem => { c with add_rm := (c.add_rm + 1) % M64 }
  | .SUB, .RegMem => { c with sub_rm := (c.sub_rm + 1) % M64 }
  | .ADC, .RegMem => { c with adc_rm := (c.adc_rm + 1) % M64 }
  | .SBB, .RegMem => { c with sbb_rm := (c.sbb_rm + 1) % M64 }
  | .MUL, .RegMem => { c with mul_rm := (c.mul_rm + 1) % M64 }
  | .MULX, .RegMem => { c with mulx_rm := (c.mulx_rm + 1) % M64 }
  | .ADCX, .RegMem => { c with adcx_rm := (c.adcx_rm + 1) % M64 }
  | .ADOX, .RegMem => { c with adox_rm := (c.adox_rm + 1) % M64 }
  | .DIV, .RegMem => { c with div_rm := (c.div_rm + 1) % M64 }

/-- One dynamic execution of an instrumented arithmetic instruction: the
counter stub body `if (Counting(tid)) St(tid)->cnts.name++` of
src/installation/int64_ops.cpp. -/
def counterCall (mode : Mode) (f : Fam) (l : Locality)
    (st : ThreadState) : ThreadState :=
  if Counting mode st then { st with cnts := counterBump f l st.cnts } else st

/-- A region-toggle event: one invocation of the `StartRegion` or
`StopRegion` analysis routine on the thread. -/
inductive RegionEv where
  | start | stop
deriving DecidableEq, Repr

/-- Apply one region-toggle event to a thread state. -/
def regionStep (st : ThreadState) : RegionEv → ThreadState
  | .start => StartRegion st
  | .stop => StopRegion st

/-- One dynamic execution of an arbitrary instruction under ADDRESS mode,
as instrumented by `InstrumentAddressRegion` of
src/installation/int64_ops.cpp: a `StartRegion` call is bound (and fires
first) when the static address equals the target, and a `StopRegion` call
is bound to every RET; both at IPOINT_BEFORE, in insertion order. -/
def addressRunStep (target : Nat) (st : ThreadState) (ins : INS) : ThreadState :=
  let st1 := if ins.address == target then StartRegion st else st
  if ins.isRet then StopRegion st1 else st1

/-- A dynamic event under MARKER mode: a routine of the binary begins
executing, a routine returns, or an instrumented arithmetic instruction
executes. -/
inductive MarkerEv where
  | rtnEnter (n : String)
  | rtnReturn (n : String)
  | arith (f : Fam) (l : Locality)
deriving DecidableEq, Repr

/-- One dynamic event under MARKER mode, as instrumented by
`InstrumentMarkerRtn` of src/installation/int64_ops.cpp: the routine whose
name equals the start marker gets a `StartRegion` call at IPOINT_AFTER
(fires when it returns), the routine whose name equals the stop marker gets
a `StopRegion` call at IPOINT_BEFORE (fires when it is entered); hooks
exist only for routines present in the binary routine table, and
arithmetic executions go through the gated counter stub. -/
def markerRunStep (table : List String) (startM stopM : String)
    (st : ThreadState) : MarkerEv → ThreadState
  | .rtnEnter n =>
      if table.contains n && n == stopM then StopRegion st else st
  | .rtnReturn n =>
      if table.contains n && n == startM then StartRegion st else st
  | .arith f l => counterCall .MARKER f l st

/-- The `DBG(level, msg)` macro of src/installation/int64_ops.cpp: the
message is emitted iff the configured debug verbosity is at least `level`. -/
def DBG (dbg level : Nat) (msg : String) : List String :=
  if level ≤ dbg then [msg] else []

/-- The startup message main() emits when MARKER mode is selected
(`DBG(1, "MARKER mode: start=" << g_start_marker << " stop=" << g_stop_marker)`). -/
def markerStartupLog (dbg : Nat) (startM stopM : String) : List String :=
  DBG dbg 1 ("MARKER mode: start=" ++ startM ++ " stop=" ++ stopM)

/-- The diagnostics `InstrumentMarkerRtn` emits while scanning the binary
routine table: one found-message per routine matching either marker. -/
def markerRtnLog (dbg : Nat) (table : List String)
    (startM stopM : String) : List String :=
  (table.map (fun n =>
    (if n == startM then DBG dbg 1 ("Found start marker: " ++ n) else []) ++
    (if n == stopM then DBG dbg 1 ("Found stop marker: " ++ n) else []))).flatten

/-- Everything the tool prints before the target program runs in MARKER
mode: the startup mode message plus the routine-scan diagnostics. -/
def markerFullLog (dbg : Nat) (table : List String)
    (startM stopM : String) : List String :=
  markerStartupLog dbg startM stopM ++ markerRtnLog dbg table startM stopM

/-- The `ACC` accumulation step of `Fini` of src/installation/int64_ops.cpp
(`total.f += st->cnts.f` on every field, as `UINT64`). -/
def accCnts (t c : Cnts) : Cnts where
  add_rr := (t.add_rr + c.add_rr) % M64
  sub_rr := (t.sub_rr + c.sub_rr) % M64
  adc_rr := (t.adc_rr + c.adc_rr) % M64
  sbb_rr := (t.sbb_rr + c.sbb_rr) % M64
  mul_rr := (t.mul_rr + c.mul_rr) % M64
  mulx_rr := (t.mulx_rr + c.mulx_rr) % M64
  adcx_rr := (t.adcx_rr + c.adcx_rr) % M64
  adox_rr := (t.adox_rr + c.adox_rr) % M64
  div_rr := (t.div_rr + c.div_rr) % M64
  add_rm := (t.add_rm + c.add_rm) % M64
  sub_rm := (t.sub_rm + c.sub_rm) % M64
  adc_rm := (t.adc_rm + c.adc_rm) % M64
  sbb_rm := (t.sbb_rm + c.sbb_rm) % M64
  mul_rm := (t.mul_rm + c.mul_rm) % M64
  mulx_rm := (t.mulx_rm + c.mulx_rm) % M64
  adcx_rm := (t.adcx_rm + c.adcx_rm) % M64
  adox_rm := (t.adox_rm + c.adox_rm) % M64
  div_rm := (t.div_rm + c.div_rm) % M64

/-- The totals loop of `Fini` of src/installation/int64_ops.cpp: zero-init
`Cnts total{}` then accumulate every registered block. -/
def finiTotal (blocks : List Cnts) : Cnts := blocks.foldl accCnts {}

/-- The four compact report lines of `Fini` of
src/installation/int64_ops.cpp.  Each `const auto` total is a left-to-right
chain of `UINT64` additions; since `((a % m + b) % m) = (a + b) % m`, the
chain equals the plain sum reduced modulo `2 ^ 64`, which is how it is
written here. -/
def finiReport (blocks : List Cnts) : Nat × Nat × Nat × Nat :=
  let t := finiTotal blocks
  let ADD := (t.add_rr + t.add_rm + t.adc_rr + t.adc_rm +
              t.adcx_rr + t.adcx_rm + t.adox_rr + t.adox_rm) % M64
  let SUB := (t.sub_rr + t.sub_rm + t.sbb_rr + t.sbb_rm) % M64
  let MUL := (t.mul_rr + t.mul_rm + t.mulx_rr + t.mulx_rm) % M64
  let DIV := (t.div_rr + t.div_rm) % M64
  (ADD, SUB, MUL, DIV)

/-- Modelled from the spec: the depth-form AddressTriggered region state
(spec section 4.2, "AddressTriggered (depth form, preferred)") is described
by the spec but not implemented anywhere under src/ (the sources only carry
the boolean flag form).  Per the spec the per-thread state is an integer
depth. -/
structure DepthState where
  depth : Int := 0
deriving DecidableEq, Repr

/-- Modelled from the spec: a routine-boundary event of the bound routine
for the depth-form region (entry to the routine, or exit from it). -/
inductive DepthEv where
  | enter | exit
deriving DecidableEq, Repr

/-- Modelled from the spec: on entry to the bound routine increment depth,
on exit decrement depth (spec section 4.2, depth form). -/
def depthStep (s : DepthState) : DepthEv → DepthState
  | .enter => { s with depth := s.depth + 1 }
  | .exit => { s with depth := s.depth - 1 }

/-- Modelled from the spec: the depth-form region is `Active` iff
`depth > 0` (spec section 4.2, depth form). -/
def depthActive (s : DepthState) : Bool := decide (0 < s.depth)

end Installation

namespace SpecSide

open Iccad

/-- Spec rule 7 family map for src/int64_ops.cpp: IMUL merges with MUL and
IDIV with DIV; only the tracked scalar opcode classes map to a family. -/
def scalarFamilyOf : Iclass → Option Int64Ops.ArithFamily
  | .ADD => some .ADD
  | .SUB => some .SUB
  | .IMUL => some .MUL
  | .MUL => some .MUL
  | .IDIV => some .DIV
  | .DIV => some .DIV
  | _ => none

/-- Spec rule 7 family map for src/installation/int64_ops.cpp. -/
def instFamilyOf : Iclass → Option Installation.Fam
  | .ADD => some .ADD
  | .SUB => some .SUB
  | .ADC => some .ADC
  | .SBB => some .SBB
  | .IMUL => some .MUL
  | .MUL => some .MUL
  | .MULX => some .MULX
  | .ADCX => some .ADCX
  | .ADOX => some .ADOX
  | .IDIV => some .DIV
  | .DIV => some .DIV
  | _ => none

end SpecSide



namespace Int64Ops

open Iccad

theorem hasImmediate_false {ins : INS}
    (h : ∀ b ∈ ins.operandIsImmediate, b = false) :
    HasImmediate ins = false := by
  simp [HasImmediate, kExcludeImmediates]
  intro hb
  simpa using h true hb

theorem touchesStack_false {ins : INS}
    (hr : ∀ r ∈ ins.regReads, ¬(r = Reg.RSP ∨ r = Reg.RBP))
    (hw : ∀ r ∈ ins.regWrites, ¬(r = Reg.RSP ∨ r = Reg.RBP))
    (hsr : ins.isStackRead = false) (hsw : ins.isStackWrite = false) :
    TouchesStack ins = false := by
  simp [TouchesStack, kExcludeStack, IsStackReg, hsr, hsw]
  constructor
  · intro r hrm
    have := hr r hrm
    constructor
    · intro e; exact this (Or.inl e)
    · intro e; exact this (Or.inr e)
  · intro r hrm
    have := hw r hrm
    constructor
    · intro e; exact this (Or.inl e)
    · intro e; exact this (Or.inr e)

theorem has64RegRead_true {ins : INS}
    (h : ∃ r ∈ ins.regReads, REG_is_gr64 r = true ∧ r ≠ Reg.RSP ∧ r ≠ Reg.RBP) :
    Has64RegRead ins = true := by
  obtain ⟨r, hm, hg, h1, h2⟩ := h
  simp [Has64RegRead, List.any_eq_true]
  exact ⟨r, hm, by simp [Is64Gpr, hg, IsStackReg, h1, h2]⟩

theorem has64RegWrite_true {ins : INS}
    (h : ∃ r ∈ ins.regWrites, REG_is_gr64 r = true ∧ r ≠ Reg.RSP ∧ r ≠ Reg.RBP) :
    Has64RegWrite ins = true := by
  obtain ⟨r, hm, hg, h1, h2⟩ := h
  simp [Has64RegWrite, List.any_eq_true]
  exact ⟨r, hm, by simp [Is64Gpr, hg, IsStackReg, h1, h2]⟩

theorem isRegReg64Arith_true {ins : INS}
    (hmem : ins.memOps = [])
    (himm : HasImmediate ins = false)
    (hstk : TouchesStack ins = false)
    (hr : Has64RegRead ins = true)
    (hw : Has64RegWrite ins = true) :
    IsRegReg64Arith ins = true := by
  simp [IsRegReg64Arith, hmem, himm, hstk, hr, hw]

end Int64Ops

namespace Installation

open Iccad

theorem hasImm_false {ins : INS}
    (h : ∀ b ∈ ins.operandIsImmediate, b = false) :
    HasImm ins = false := by
  simp [HasImm]
  intro hb
  simpa using h true hb

theorem touchesStackI_false {ins : INS}
    (hr : ∀ r ∈ ins.regReads, ¬(r = Reg.RSP ∨ r = Reg.RBP))
    (hw : ∀ r ∈ ins.regWrites, ¬(r = Reg.RSP ∨ r = Reg.RBP))
    (hsr : ins.isStackRead = false) (hsw : ins.isStackWrite = false) :
    TouchesStack ins = false := by
  simp [TouchesStack, IsStack, hsr, hsw]
  constructor
  · intro r hrm
    have := hr r hrm
    exact ⟨fun e => this (Or.inl e), fun e => this (Or.inr e)⟩
  · intro r hrm
    have := hw r hrm
    exact ⟨fun e => this (Or.inl e), fun e => this (Or.inr e)⟩

theorem has64R_true {ins : INS}
    (h : ∃ r ∈ ins.regReads, REG_is_gr64 r = true ∧ r ≠ Reg.RSP ∧ r ≠ Reg.RBP) :
    Has64R ins = true := by
  obtain ⟨r, hm, hg, h1, h2⟩ := h
  simp [Has64R, List.any_eq_true]
  exact ⟨r, hm, by simp [hg, IsStack, h1, h2]⟩

theorem has64W_true {ins : INS}
    (h : ∃ r ∈ ins.regWrites, REG_is_gr64 r = true ∧ r ≠ Reg.RSP ∧ r ≠ Reg.RBP) :
    Has64W ins = true := by
  obtain ⟨r, hm, hg, h1, h2⟩ := h
  simp [Has64W, List.any_eq_true]
  exact ⟨r, hm, by simp [hg, IsStack, h1, h2]⟩

theorem isRegReg64_true {ins : INS}
    (hmem : ins.memOps = [])
    (himm : HasImm ins = false)
    (hstk : TouchesStack ins = false)
    (hr : Has64R ins = true)
    (hw : Has64W ins = true) :
    IsRegReg64 ins = true := by
  simp [IsRegReg64, hmem, himm, hstk, hr, hw]

end Installation

/-- C1: a descriptor of a tracked scalar arithmetic family with zero memory
operands, no immediate, no stack register read or written, no stack memory
access, and at least one non-stack 64-bit GPR read and write is classified
RegReg of that family (in both tools), and a RegMem outcome is only ever
produced when the RegReg test fails, so the two outcomes are mutually
exclusive for every descriptor. -/
theorem claim_C1_regreg_classification (ins : Iccad.INS)
    (hmem : ins.memOps = [])
    (himm : ∀ b ∈ ins.operandIsImmediate, b = false)
    (hrs : ∀ r ∈ ins.regReads, ¬(r = Iccad.Reg.RSP ∨ r = Iccad.Reg.RBP))
    (hws : ∀ r ∈ ins.regWrites, ¬(r = Iccad.Reg.RSP ∨ r = Iccad.Reg.RBP))
    (hsr : ins.isStackRead = false) (hsw : ins.isStackWrite = false)
    (h64r : ∃ r ∈ ins.regReads,
      Iccad.REG_is_gr64 r = true ∧ r ≠ Iccad.Reg.RSP ∧ r ≠ Iccad.Reg.RBP)
    (h64w : ∃ r ∈ ins.regWrites,
      Iccad.REG_is_gr64 r = true ∧ r ≠ Iccad.Reg.RSP ∧ r ≠ Iccad.Reg.RBP) :
    (∀ f, SpecSide.scalarFamilyOf ins.opcode = some f →
      Int64Ops.Instruction ins =
        some (Int64Ops.Bucket.scalar f Int64Ops.Locality.RegReg)) ∧
    (∀ g, SpecSide.instFamilyOf ins.opcode = some g →
      Installation.InstrumentArith ins = some (g, Installation.Locality.RegReg)) ∧
    (∀ ins2 f, Int64Ops.Instruction ins2 =
        some (Int64Ops.Bucket.scalar f Int64Ops.Locality.RegMem) →
      Int64Ops.IsRegReg64Arith ins2 = false) ∧
    (∀ ins2 g, Installation.InstrumentArith ins2 =
        some (g, Installation.Locality.RegMem) →
      Installation.IsRegReg64 ins2 = false) := by
  have h1 := Int64Ops.hasImmediate_false himm
  have h2 := Int64Ops.touchesStack_false hrs hws hsr hsw
  have h3 := Int64Ops.has64RegRead_true h64r
  have h4 := Int64Ops.has64RegWrite_true h64w
  have hrr := Int64Ops.isRegReg64Arith_true hmem h1 h2 h3 h4
  have g1 := Installation.hasImm_false himm
  have g2 := Installation.touchesStackI_false hrs hws hsr hsw
  have g3 := Installation.has64R_true h64r
  have g4 := Installation.has64W_true h64w
  have grr := Installation.isRegReg64_true hmem g1 g2 g3 g4
  refine ⟨?_, ?_, ?_, ?_⟩
  · intro f hf
    cases hopc : ins.opcode <;>
      simp [SpecSide.scalarFamilyOf, hopc] at hf <;>
      subst hf <;>
      simp [Int64Ops.Instruction, hopc, hrr,
            Int64Ops.IsSimdAddQ, Int64Ops.IsSimdSubQ, Int64Ops.Is64ArithOpcode]
  · intro g hg
    cases hopc : ins.opcode <;>
      simp [SpecSide.instFamilyOf, hopc] at hg <;>
      subst hg <;>
      simp [Installation.InstrumentArith, hopc, grr, g1, Installation.IsALU64]
  · intro ins2 f h
    by_cases hrr2 : Int64Ops.IsRegReg64Arith ins2 = true
    · exfalso
      revert h
      cases hopc : ins2.opcode <;>
        simp [Int64Ops.Instruction, hopc, hrr2,
              Int64Ops.IsSimdAddQ, Int64Ops.IsSimdSubQ, Int64Ops.Is64ArithOpcode]
    · simpa using hrr2
  · intro ins2 g h
    by_cases grr2 : Installation.IsRegReg64 ins2 = true
    · exfalso
      revert h
      cases hopc : ins2.opcode <;>
        simp [Installation.InstrumentArith, hopc, grr2, Installation.IsALU64]
    · simpa using grr2

namespace Int64Ops

open Iccad

theorem isRegMem64Arith_eq {ins : INS}
    (himm : HasImmediate ins = false)
    (hstk : TouchesStack ins = false) :
    IsRegMem64Arith ins =
      (LoadCombine ins || (kCountMemDestRmw && StoreCombine ins)) := by
  simp only [IsRegMem64Arith, himm, hstk, LoadCombine, StoreCombine,
    kCountMemDestRmw, Bool.false_eq_true, if_false]
  cases h1 : HasMemRead8 ins <;> cases h2 : HasMemWrite8 ins <;>
    cases h3 : Has64RegRead ins <;> cases h4 : Has64RegWrite ins <;> simp

theorem hasMemRead8_memOps_ne {ins : INS} (h : HasMemRead8 ins = true) :
    ins.memOps.length ≠ 0 := by
  simp [HasMemRead8, List.any_eq_true] at h
  obtain ⟨m, hm, _⟩ := h
  simp [List.length_eq_zero]
  intro he
  rw [he] at hm
  simp at hm

theorem hasMemWrite8_memOps_ne {ins : INS} (h : HasMemWrite8 ins = true) :
    ins.memOps.length ≠ 0 := by
  simp [HasMemWrite8, List.any_eq_true] at h
  obtain ⟨m, hm, _⟩ := h
  simp [List.length_eq_zero]
  intro he
  rw [he] at hm
  simp at hm

theorem isRegReg64Arith_false_of_mem {ins : INS}
    (h : ins.memOps.length ≠ 0) : IsRegReg64Arith ins = false := by
  simp [IsRegReg64Arith, h]

theorem instruction_regmem_iff (ins : INS) (f : ArithFamily) :
    Instruction ins = some (Bucket.scalar f Locality.RegMem) ↔
      (SpecSide.scalarFamilyOf ins.opcode = some f ∧
       IsRegReg64Arith ins = false ∧ IsRegMem64Arith ins = true) := by
  cases hopc : ins.opcode <;>
    cases h1 : IsRegReg64Arith ins <;>
    cases h2 : IsRegMem64Arith ins <;>
    simp [Instruction, hopc, h1, h2, SpecSide.scalarFamilyOf,
          IsSimdAddQ, IsSimdSubQ, Is64ArithOpcode]

end Int64Ops

namespace Installation

open Iccad

theorem isRegMem64_eq {ins : INS}
    (himm : HasImm ins = false)
    (hstk : TouchesStack ins = false) :
    IsRegMem64 ins = (LoadCombine ins || StoreCombine ins) := by
  simp [IsRegMem64, himm, hstk, LoadCombine, StoreCombine]

theorem memRead8_memOps_ne {ins : INS} (h : MemRead8 ins = true) :
    ins.memOps.length ≠ 0 := by
  simp [MemRead8, List.any_eq_true] at h
  obtain ⟨m, hm, _⟩ := h
  simp [List.length_eq_zero]
  intro he
  rw [he] at hm
  simp at hm

theorem memWrite8_memOps_ne {ins : INS} (h : MemWrite8 ins = true) :
    ins.memOps.length ≠ 0 := by
  simp [MemWrite8, List.any_eq_true] at h
  obtain ⟨m, hm, _⟩ := h
  simp [List.length_eq_zero]
  intro he
  rw [he] at hm
  simp at hm

theorem isRegReg64_false_of_mem {ins : INS}
    (h : ins.memOps.length ≠ 0) : IsRegReg64 ins = false := by
  simp [IsRegReg64]
  intro he
  exact absurd (by simp [List.length_eq_zero] at he ⊢; exact he) h

theorem instrumentArith_regmem_iff (ins : INS) (g : Fam) :
    InstrumentArith ins = some (g, Locality.RegMem) ↔
      (SpecSide.instFamilyOf ins.opcode = some g ∧
       HasImm ins = false ∧
       IsRegReg64 ins = false ∧ IsRegMem64 ins = true) := by
  cases hopc : ins.opcode <;>
    cases h0 : HasImm ins <;>
    cases h1 : IsRegReg64 ins <;>
    cases h2 : IsRegMem64 ins <;>
    simp [InstrumentArith, hopc, h0, h1, h2, SpecSide.instFamilyOf, IsALU64]

end Installation

/-- C2: for a descriptor of a tracked family with no immediate and no stack
traffic, the classifier assigns RegMem iff the load-combine test holds or
(with RMW counting enabled) the store-combine test holds, in both tools;
and the two tests are never simultaneously true for any descriptor. -/
theorem claim_C2_regmem_classification (ins : Iccad.INS)
    (himm : ∀ b ∈ ins.operandIsImmediate, b = false)
    (hrs : ∀ r ∈ ins.regReads, ¬(r = Iccad.Reg.RSP ∨ r = Iccad.Reg.RBP))
    (hws : ∀ r ∈ ins.regWrites, ¬(r = Iccad.Reg.RSP ∨ r = Iccad.Reg.RBP))
    (hsr : ins.isStackRead = false) (hsw : ins.isStackWrite = false) :
    (∀ f, SpecSide.scalarFamilyOf ins.opcode = some f →
      (Int64Ops.Instruction ins =
          some (Int64Ops.Bucket.scalar f Int64Ops.Locality.RegMem) ↔
        (Int64Ops.LoadCombine ins = true ∨
         (Int64Ops.kCountMemDestRmw = true ∧
          Int64Ops.StoreCombine ins = true)))) ∧
    (∀ g, SpecSide.instFamilyOf ins.opcode = some g →
      (Installation.InstrumentArith ins = some (g, Installation.Locality.RegMem) ↔
        (Installation.LoadCombine ins = true ∨
         Installation.StoreCombine ins = true))) ∧
    (∀ ins2 : Iccad.INS,
      ¬(Int64Ops.LoadCombine ins2 = true ∧ Int64Ops.StoreCombine ins2 = true)) ∧
    (∀ ins2 : Iccad.INS,
      ¬(Installation.LoadCombine ins2 = true ∧
        Installation.StoreCombine ins2 = true)) := by
  have h1 := Int64Ops.hasImmediate_false himm
  have h2 := Int64Ops.touchesStack_false hrs hws hsr hsw
  have g1 := Installation.hasImm_false himm
  have g2 := Installation.touchesStackI_false hrs hws hsr hsw
  refine ⟨?_, ?_, ?_, ?_⟩
  · intro f hf
    rw [Int64Ops.instruction_regmem_iff]
    constructor
    · rintro ⟨-, -, hm⟩
      rw [Int64Ops.isRegMem64Arith_eq h1 h2] at hm
      simp only [Bool.or_eq_true, Bool.and_eq_true] at hm
      exact hm
    · intro h
      refine ⟨hf, ?_, ?_⟩
      · rcases h with hl | ⟨-, hs⟩
        · have : Int64Ops.HasMemRead8 ins = true := by
            simp [Int64Ops.LoadCombine, Bool.and_eq_true] at hl
            exact hl.1.1
          exact Int64Ops.isRegReg64Arith_false_of_mem
            (Int64Ops.hasMemRead8_memOps_ne this)
        · have : Int64Ops.HasMemWrite8 ins = true := by
            simp [Int64Ops.StoreCombine, Bool.and_eq_true] at hs
            exact hs.1
          exact Int64Ops.isRegReg64Arith_false_of_mem
            (Int64Ops.hasMemWrite8_memOps_ne this)
      · rw [Int64Ops.isRegMem64Arith_eq h1 h2]
        simp only [Bool.or_eq_true, Bool.and_eq_true]
        exact h
  · intro g hg
    rw [Installation.instrumentArith_regmem_iff]
    constructor
    · rintro ⟨-, -, -, hm⟩
      rw [Installation.isRegMem64_eq g1 g2] at hm
      simp only [Bool.or_eq_true] at hm
      exact hm
    · intro h
      refine ⟨hg, g1, ?_, ?_⟩
      · rcases h with hl | hs
        · have : Installation.MemRead8 ins = true := by
            simp [Installation.LoadCombine, Bool.and_eq_true] at hl
            exact hl.1.1
          exact Installation.isRegReg64_false_of_mem
            (Installation.memRead8_memOps_ne this)
        · have : Installation.MemWrite8 ins = true := by
            simp [Installation.StoreCombine, Bool.and_eq_true] at hs
            exact hs.1
          exact Installation.isRegReg64_false_of_mem
            (Installation.memWrite8_memOps_ne this)
      · rw [Installation.isRegMem64_eq g1 g2]
        simp only [Bool.or_eq_true]
        exact h
  · rintro ins2 ⟨hl, hs⟩
    simp [Int64Ops.LoadCombine, Bool.and_eq_true] at hl
    simp [Int64Ops.StoreCombine, Bool.and_eq_true] at hs
    rw [hl.2] at hs
    simp at hs
  · rintro ins2 ⟨hl, hs⟩
    simp [Installation.LoadCombine, Bool.and_eq_true] at hl
    simp [Installation.StoreCombine, Bool.and_eq_true] at hs
    rw [hl.2] at hs
    simp at hs

namespace Int64Ops

open Iccad

theorem isSimdAddQ_false_of_subq {opc : Iclass} (h : IsSimdSubQ opc = true) :
    IsSimdAddQ opc = false := by
  cases opc <;> simp_all [IsSimdAddQ, IsSimdSubQ]

theorem instruction_simd_addq {ins : INS} (h : IsSimdAddQ ins.opcode = true) :
    Instruction ins = some (Bucket.simd .AddQ (FirstKMaskRead ins).isSome
      (QwordLanesWritten ins) (FirstKMaskRead ins)) := by
  simp [Instruction, h]

theorem instruction_simd_subq {ins : INS} (h : IsSimdSubQ ins.opcode = true) :
    Instruction ins = some (Bucket.simd .SubQ (FirstKMaskRead ins).isSome
      (QwordLanesWritten ins) (FirstKMaskRead ins)) := by
  simp [Instruction, h, isSimdAddQ_false_of_subq h]

end Int64Ops

/-- C3: the packed path is checked first and returns early, so a packed
add/subtract opcode always yields a SIMD bucket and never a scalar one;
within the scalar path a RegMem outcome occurs only when the RegReg test
fails; and classification is single-valued (at most one bucket). -/
theorem claim_C3_single_bucket :
    (∀ ins : Iccad.INS,
      (Int64Ops.IsSimdAddQ ins.opcode = true ∨
       Int64Ops.IsSimdSubQ ins.opcode = true) →
      (∃ sf m ln km, Int64Ops.Instruction ins =
          some (Int64Ops.Bucket.simd sf m ln km)) ∧
      (∀ f l, Int64Ops.Instruction ins ≠ some (Int64Ops.Bucket.scalar f l))) ∧
    (∀ (ins : Iccad.INS) f,
      Int64Ops.Instruction ins =
          some (Int64Ops.Bucket.scalar f Int64Ops.Locality.RegMem) →
      Int64Ops.IsRegReg64Arith ins = false) ∧
    (∀ (ins : Iccad.INS) b1 b2, Int64Ops.Instruction ins = some b1 →
      Int64Ops.Instruction ins = some b2 → b1 = b2) := by
  refine ⟨?_, ?_, ?_⟩
  · intro ins h
    constructor
    · rcases h with h | h
      · exact ⟨_, _, _, _, Int64Ops.instruction_simd_addq h⟩
      · exact ⟨_, _, _, _, Int64Ops.instruction_simd_subq h⟩
    · intro f l
      rcases h with h | h
      · rw [Int64Ops.instruction_simd_addq h]
        simp
      · rw [Int64Ops.instruction_simd_subq h]
        simp
  · intro ins f h
    exact ((Int64Ops.instruction_regmem_iff ins f).mp h).2.1
  · intro ins b1 b2 h1 h2
    rw [h1] at h2
    exact Option.some.inj h2

namespace SpecSide

theorem popcount_zero : popcount 0 = 0 := by simp [popcount]

theorem popcount_pos (n : Nat) (h : n ≠ 0) :
    popcount n = n % 2 + popcount (n / 2) := by
  rw [popcount]
  simp [h]

theorem popcount_two_mul_add (k r : Nat) (hr : r < 2) :
    popcount (2 * k + r) = r + popcount k := by
  rcases Nat.eq_zero_or_pos (2 * k + r) with h | h
  · have hk : k = 0 := by omega
    have hr0 : r = 0 := by omega
    subst hk
    subst hr0
    simp [popcount_zero]
  · rw [popcount_pos _ (by omega)]
    have h1 : (2 * k + r) % 2 = r := by omega
    have h2 : (2 * k + r) / 2 = k := by omega
    rw [h1, h2]

theorem mod_two_pow_succ (m l : Nat) :
    m % 2 ^ (l + 1) = 2 * ((m / 2) % 2 ^ l) + m % 2 := by
  have hn : 0 < 2 ^ l := Nat.pos_pow_of_pos l (by decide)
  have h2 : 2 ^ (l + 1) = 2 * 2 ^ l := by rw [Nat.pow_succ]; ring
  have hq := Nat.mul_mod_mul_left 2 (m / 2) (2 ^ l)
  have hr : m % 2 < 2 := Nat.mod_lt _ (by decide)
  have hq2 := Nat.mod_lt (m / 2) hn
  have hlt : 2 * ((m / 2) % 2 ^ l) + m % 2 < 2 * 2 ^ l := by omega
  conv_lhs => rw [← Nat.div_add_mod m 2, h2]
  calc (2 * (m / 2) + m % 2) % (2 * 2 ^ l)
      = ((2 * (m / 2)) % (2 * 2 ^ l) + (m % 2) % (2 * 2 ^ l)) % (2 * 2 ^ l) :=
        Nat.add_mod ..
    _ = (2 * ((m / 2) % 2 ^ l) + m % 2) % (2 * 2 ^ l) := by
        rw [hq, Nat.mod_eq_of_lt (a := m % 2) (by omega)]
    _ = 2 * ((m / 2) % 2 ^ l) + m % 2 := Nat.mod_eq_of_lt hlt

end SpecSide

namespace Int64Ops

open Iccad

theorem maskActive_shift (m l : Nat) :
    maskActive m (l + 1) = m % 2 + maskActive (m / 2) l := by
  induction l with
  | zero => simp [maskActive, Nat.and_one_is_mod]
  | succ l ih =>
      have hsh : m >>> (l + 1) = (m / 2) >>> l := by
        rw [show l + 1 = 1 + l by omega, Nat.shiftRight_add, Nat.shiftRight_one]
      calc maskActive m (l + 2)
          = maskActive m (l + 1) + ((m >>> (l + 1)) &&& 1) := rfl
        _ = m % 2 + maskActive (m / 2) l + (((m / 2) >>> l) &&& 1) := by
            rw [ih, hsh]
        _ = m % 2 + maskActive (m / 2) (l + 1) := by
            simp [maskActive, Nat.add_assoc]

theorem maskActive_eq_popcount :
    ∀ (lanes m : Nat), maskActive m lanes = SpecSide.popcount (m % 2 ^ lanes) := by
  intro lanes
  induction lanes with
  | zero => intro m; simp [maskActive, Nat.mod_one, SpecSide.popcount_zero]
  | succ l ih =>
      intro m
      rw [maskActive_shift, ih (m / 2), SpecSide.mod_two_pow_succ,
          SpecSide.popcount_two_mul_add _ _ (Nat.mod_lt _ (by decide))]

theorem maskActive_eq_popcount_and (m lanes : Nat) :
    maskActive m lanes = SpecSide.popcount (m &&& (2 ^ lanes - 1)) := by
  rw [Nat.and_pow_two_sub_one_eq_mod, maskActive_eq_popcount]

end Int64Ops

namespace Int64Ops

open Iccad

theorem le_foldl_max : ∀ (xs : List Nat) (a : Nat), a ≤ xs.foldl max a := by
  intro xs
  induction xs with
  | nil => intro a; simp
  | cons x xs ih =>
      intro a
      simp only [List.foldl_cons]
      exact le_trans (Nat.le_max_left a x) (ih (max a x))

theorem mem_le_foldl_max : ∀ (xs : List Nat) (a x : Nat),
    x ∈ xs → x ≤ xs.foldl max a := by
  intro xs
  induction xs with
  | nil => intro a x h; simp at h
  | cons y ys ih =>
      intro a x h
      simp only [List.foldl_cons]
      rcases List.mem_cons.mp h with rfl | h2
      · exact le_trans (Nat.le_max_right a x) (le_foldl_max ys _)
      · exact ih _ x h2

theorem vecfold_eq : ∀ (l : List Reg) (a : Nat),
    l.foldl (fun mb r => if IsVecReg r then max mb (REG_Size r) else mb) a =
      ((l.filter IsVecReg).map REG_Size).foldl max a := by
  intro l
  induction l with
  | nil => intro a; simp
  | cons x xs ih =>
      intro a
      by_cases hx : IsVecReg x = true
      · simp only [List.foldl_cons, List.filter_cons, hx, if_true,
                   List.map_cons]
        exact ih (max a (REG_Size x))
      · simp only [List.foldl_cons, List.filter_cons, hx]
        simp only [Bool.false_eq_true, if_false]
        exact ih a

theorem isVecReg_size_ge {r : Reg} (h : IsVecReg r = true) : 8 ≤ REG_Size r := by
  cases r <;> simp_all [IsVecReg, REG_is_mm, REG_is_xmm, REG_is_ymm,
    REG_is_zmm, REG_Size]

theorem qwordLanesWritten_eq_specLanes (ins : INS) :
    QwordLanesWritten ins = SpecSide.specLanes ins := by
  unfold QwordLanesWritten SpecSide.specLanes SpecSide.widestVecWrittenBytes
  rw [vecfold_eq]
  by_cases h : ins.regWrites.filter IsVecReg = []
  · simp [h]
  · have hne : ((ins.regWrites.filter IsVecReg).map REG_Size).foldl max 0 ≠ 0 := by
      obtain ⟨r, hr⟩ := List.exists_mem_of_ne_nil _ h
      have hmem : REG_Size r ∈ (ins.regWrites.filter IsVecReg).map REG_Size :=
        List.mem_map_of_mem _ hr
      have hvec : IsVecReg r = true := List.of_mem_filter hr
      have := mem_le_foldl_max _ 0 _ hmem
      have := isVecReg_size_ge hvec
      omega
    simp [h, hne]

end Int64Ops

/-- C4: for every packed 64-bit-lane add/subtract instruction the lane count
equals the widest written vector-register byte size divided by 8 (2 when no
vector register is written); the masked analysis callbacks add
popcount(mask & ((1 << lanes) - 1)) lane-ops per execution, the unmasked
ones add `lanes`, and every variant advances the matching instruction
counter by exactly 1 (the counters being 64-bit, the updates are stated
modulo 2^64 and, below the wraparound bound, as exact increments). -/
theorem claim_C4_packed_lane_counting :
    (∀ ins : Iccad.INS, Int64Ops.QwordLanesWritten ins = SpecSide.specLanes ins) ∧
    (∀ ins : Iccad.INS, (Int64Ops.FirstKMaskRead ins).isSome =
        ins.regReads.any Iccad.REG_is_k_mask) ∧
    (∀ (c : Int64Ops.Cnts) (lanes kbits : Nat),
      (Int64Ops.SimdAddQMasked c lanes kbits).simd_addq_ops =
        (c.simd_addq_ops + SpecSide.popcount (kbits &&& (2 ^ lanes - 1))) %
          Iccad.M64 ∧
      (Int64Ops.SimdAddQMasked c lanes kbits).simd_addq_insn =
        (c.simd_addq_insn + 1) % Iccad.M64 ∧
      (Int64Ops.SimdSubQMasked c lanes kbits).simd_subq_ops =
        (c.simd_subq_ops + SpecSide.popcount (kbits &&& (2 ^ lanes - 1))) %
          Iccad.M64 ∧
      (Int64Ops.SimdSubQMasked c lanes kbits).simd_subq_insn =
        (c.simd_subq_insn + 1) % Iccad.M64) ∧
    (∀ (c : Int64Ops.Cnts) (lanes : Nat),
      (Int64Ops.SimdAddQ c lanes).simd_addq_ops =
        (c.simd_addq_ops + lanes) % Iccad.M64 ∧
      (Int64Ops.SimdAddQ c lanes).simd_addq_insn =
        (c.simd_addq_insn + 1) % Iccad.M64 ∧
      (Int64Ops.SimdSubQ c lanes).simd_subq_ops =
        (c.simd_subq_ops + lanes) % Iccad.M64 ∧
      (Int64Ops.SimdSubQ c lanes).simd_subq_insn =
        (c.simd_subq_insn + 1) % Iccad.M64) ∧
    (∀ (c : Int64Ops.Cnts) (lanes kbits : Nat),
      c.simd_addq_ops + SpecSide.popcount (kbits &&& (2 ^ lanes - 1)) <
        Iccad.M64 →
      c.simd_addq_insn + 1 < Iccad.M64 →
      (Int64Ops.SimdAddQMasked c lanes kbits).simd_addq_ops =
        c.simd_addq_ops + SpecSide.popcount (kbits &&& (2 ^ lanes - 1)) ∧
      (Int64Ops.SimdAddQMasked c lanes kbits).simd_addq_insn =
        c.simd_addq_insn + 1) ∧
    (∀ (c : Int64Ops.Cnts) (lanes : Nat),
      c.simd_addq_ops + lanes < Iccad.M64 → c.simd_addq_insn + 1 < Iccad.M64 →
      (Int64Ops.SimdAddQ c lanes).simd_addq_ops = c.simd_addq_ops + lanes ∧
      (Int64Ops.SimdAddQ c lanes).simd_addq_insn = c.simd_addq_insn + 1) := by
  refine ⟨Int64Ops.qwordLanesWritten_eq_specLanes, ?_, ?_, ?_, ?_, ?_⟩
  · intro ins
    unfold Int64Ops.FirstKMaskRead
    cases h : ins.regReads.find? Iccad.REG_is_k_mask with
    | none =>
        have hall := List.find?_eq_none.mp h
        have : ins.regReads.any Iccad.REG_is_k_mask = false := by
          simp only [List.any_eq_false]
          intro r hr
          simpa using hall r hr
        simp [this]
    | some r =>
        have hp := List.find?_some h
        have hm := List.mem_of_find?_eq_some h
        have : ins.regReads.any Iccad.REG_is_k_mask = true :=
          List.any_eq_true.mpr ⟨r, hm, hp⟩
        simp [this]
  · intro c lanes kbits
    refine ⟨?_, rfl, ?_, rfl⟩ <;>
      simp [Int64Ops.SimdAddQMasked, Int64Ops.SimdSubQMasked,
        Int64Ops.maskActive_eq_popcount_and]
  · intro c lanes
    exact ⟨rfl, rfl, rfl, rfl⟩
  · intro c lanes kbits h1 h2
    constructor
    · rw [show (Int64Ops.SimdAddQMasked c lanes kbits).simd_addq_ops =
          (c.simd_addq_ops +
            SpecSide.popcount (kbits &&& (2 ^ lanes - 1))) % Iccad.M64 from by
        simp [Int64Ops.SimdAddQMasked, Int64Ops.maskActive_eq_popcount_and]]
      exact Nat.mod_eq_of_lt h1
    · rw [show (Int64Ops.SimdAddQMasked c lanes kbits).simd_addq_insn =
          (c.simd_addq_insn + 1) % Iccad.M64 from rfl]
      exact Nat.mod_eq_of_lt h2
  · intro c lanes h1 h2
    exact ⟨by simp [Int64Ops.SimdAddQ, Nat.mod_eq_of_lt h1],
           by simp [Int64Ops.SimdAddQ, Nat.mod_eq_of_lt h2]⟩

namespace Installation

open Iccad

theorem foldAcc_field (g : Cnts → Nat)
    (hg : ∀ t c, g (accCnts t c) = (g t + g c) % M64) :
    ∀ (bs : List Cnts) (t : Cnts), g t < M64 →
      g (bs.foldl accCnts t) = (g t + (bs.map g).sum) % M64 := by
  intro bs
  induction bs with
  | nil => intro t ht; simp [Nat.mod_eq_of_lt ht]
  | cons b bs ih =>
      intro t ht
      simp only [List.foldl_cons, List.map_cons, List.sum_cons]
      rw [ih _ (by rw [hg]; exact Nat.mod_lt _ (by decide)), hg,
          Nat.mod_add_mod, Nat.add_assoc]

theorem finiTotal_field (blocks : List Cnts) (g : Cnts → Nat)
    (hg : ∀ t c, g (accCnts t c) = (g t + g c) % M64)
    (h0 : g {} = 0) :
    g (finiTotal blocks) = (blocks.map g).sum % M64 := by
  have h := foldAcc_field g hg blocks {} (by rw [h0]; decide)
  rw [finiTotal, h, h0, Nat.zero_add]

theorem sum_map_add_split {α : Type} (f g : α → Nat) (l : List α) :
    (l.map (fun x => f x + g x)).sum = (l.map f).sum + (l.map g).sum := by
  induction l with
  | nil => simp
  | cons x xs ih => simp [ih]; omega

end Installation

/-- C5: at finalize the reported compact totals group the families as
ADD = {ADD, ADC, ADCX, ADOX}, SUB = {SUB, SBB}, MUL = {MUL/IMUL, MULX},
DIV = {DIV/IDIV}, each across both localities, and each reported total is
the sum over every registered per-thread counter block of that block's
contribution (modulo 2^64; exactly, below the wraparound bound). -/
theorem claim_C5_aggregation_report (blocks : List Installation.Cnts) :
    ((Installation.finiReport blocks).1 =
      (blocks.map (fun c => c.add_rr + c.add_rm + c.adc_rr + c.adc_rm +
        c.adcx_rr + c.adcx_rm + c.adox_rr + c.adox_rm)).sum % Iccad.M64) ∧
    ((Installation.finiReport blocks).2.1 =
      (blocks.map (fun c => c.sub_rr + c.sub_rm + c.sbb_rr + c.sbb_rm)).sum %
        Iccad.M64) ∧
    ((Installation.finiReport blocks).2.2.1 =
      (blocks.map (fun c => c.mul_rr + c.mul_rm + c.mulx_rr + c.mulx_rm)).sum %
        Iccad.M64) ∧
    ((Installation.finiReport blocks).2.2.2 =
      (blocks.map (fun c => c.div_rr + c.div_rm)).sum % Iccad.M64) ∧
    ((blocks.map (fun c => c.add_rr + c.add_rm + c.adc_rr + c.adc_rm +
        c.adcx_rr + c.adcx_rm + c.adox_rr + c.adox_rm)).sum < Iccad.M64 →
      (Installation.finiReport blocks).1 =
        (blocks.map (fun c => c.add_rr + c.add_rm + c.adc_rr + c.adc_rm +
          c.adcx_rr + c.adcx_rm + c.adox_rr + c.adox_rm)).sum) ∧
    ((blocks.map (fun c => c.sub_rr + c.sub_rm + c.sbb_rr + c.sbb_rm)).sum <
        Iccad.M64 →
      (Installation.finiReport blocks).2.1 =
        (blocks.map (fun c => c.sub_rr + c.sub_rm + c.sbb_rr + c.sbb_rm)).sum) ∧
    ((blocks.map (fun c => c.mul_rr + c.mul_rm + c.mulx_rr + c.mulx_rm)).sum <
        Iccad.M64 →
      (Installation.finiReport blocks).2.2.1 =
        (blocks.map (fun c => c.mul_rr + c.mul_rm + c.mulx_rr + c.mulx_rm)).sum) ∧
    ((blocks.map (fun c => c.div_rr + c.div_rm)).sum < Iccad.M64 →
      (Installation.finiReport blocks).2.2.2 =
        (blocks.map (fun c => c.div_rr + c.div_rm)).sum) := by
  have hM64 : Iccad.M64 = 18446744073709551616 := by norm_num [Iccad.M64]
  have key : ∀ g : Installation.Cnts → Nat,
      (∀ t c, g (Installation.accCnts t c) = (g t + g c) % Iccad.M64) →
      g ({} : Installation.Cnts) = 0 →
      g (Installation.finiTotal blocks) = (blocks.map g).sum % Iccad.M64 :=
    fun g hg h0 => Installation.finiTotal_field blocks g hg h0
  have e1 : (Installation.finiTotal blocks).add_rr =
      (blocks.map Installation.Cnts.add_rr).sum % Iccad.M64 :=
    key (fun c => c.add_rr) (fun t c => rfl) rfl
  have e2 : (Installation.finiTotal blocks).add_rm =
      (blocks.map Installation.Cnts.add_rm).sum % Iccad.M64 :=
    key (fun c => c.add_rm) (fun t c => rfl) rfl
  have e3 : (Installation.finiTotal blocks).adc_rr =
      (blocks.map Installation.Cnts.adc_rr).sum % Iccad.M64 :=
    key (fun c => c.adc_rr) (fun t c => rfl) rfl
  have e4 : (Installation.finiTotal blocks).adc_rm =
      (blocks.map Installation.Cnts.adc_rm).sum % Iccad.M64 :=
    key (fun c => c.adc_rm) (fun t c => rfl) rfl
  have e5 : (Installation.finiTotal blocks).adcx_rr =
      (blocks.map Installation.Cnts.adcx_rr).sum % Iccad.M64 :=
    key (fun c => c.adcx_rr) (fun t c => rfl) rfl
  have e6 : (Installation.finiTotal blocks).adcx_rm =
      (blocks.map Installation.Cnts.adcx_rm).sum % Iccad.M64 :=
    key (fun c => c.adcx_rm) (fun t c => rfl) rfl
  have e7 : (Installation.finiTotal blocks).adox_rr =
      (blocks.map Installation.Cnts.adox_rr).sum % Iccad.M64 :=
    key (fun c => c.adox_rr) (fun t c => rfl) rfl
  have e8 : (Installation.finiTotal blocks).adox_rm =
      (blocks.map Installation.Cnts.adox_rm).sum % Iccad.M64 :=
    key (fun c => c.adox_rm) (fun t c => rfl) rfl
  have s1 : (Installation.finiTotal blocks).sub_rr =
      (blocks.map Installation.Cnts.sub_rr).sum % Iccad.M64 :=
    key (fun c => c.sub_rr) (fun t c => rfl) rfl
  have s2 : (Installation.finiTotal blocks).sub_rm =
      (blocks.map Installation.Cnts.sub_rm).sum % Iccad.M64 :=
    key (fun c => c.sub_rm) (fun t c => rfl) rfl
  have s3 : (Installation.finiTotal blocks).sbb_rr =
      (blocks.map Installation.Cnts.sbb_rr).sum % Iccad.M64 :=
    key (fun c => c.sbb_rr) (fun t c => rfl) rfl
  have s4 : (Installation.finiTotal blocks).sbb_rm =
      (blocks.map Installation.Cnts.sbb_rm).sum % Iccad.M64 :=
    key (fun c => c.sbb_rm) (fun t c => rfl) rfl
  have m1 : (Installation.finiTotal blocks).mul_rr =
      (blocks.map Installation.Cnts.mul_rr).sum % Iccad.M64 :=
    key (fun c => c.mul_rr) (fun t c => rfl) rfl
  have m2 : (Installation.finiTotal blocks).mul_rm =
      (blocks.map Installation.Cnts.mul_rm).sum % Iccad.M64 :=
    key (fun c => c.mul_rm) (fun t c => rfl) rfl
  have m3 : (Installation.finiTotal blocks).mulx_rr =
      (blocks.map Installation.Cnts.mulx_rr).sum % Iccad.M64 :=
    key (fun c => c.mulx_rr) (fun t c => rfl) rfl
  have m4 : (Installation.finiTotal blocks).mulx_rm =
      (blocks.map Installation.Cnts.mulx_rm).sum % Iccad.M64 :=
    key (fun c => c.mulx_rm) (fun t c => rfl) rfl
  have d1 : (Installation.finiTotal blocks).div_rr =
      (blocks.map Installation.Cnts.div_rr).sum % Iccad.M64 :=
    key (fun c => c.div_rr) (fun t c => rfl) rfl
  have d2 : (Installation.finiTotal blocks).div_rm =
      (blocks.map Installation.Cnts.div_rm).sum % Iccad.M64 :=
    key (fun c => c.div_rm) (fun t c => rfl) rfl
  have hADD : (Installation.finiReport blocks).1 =
      (blocks.map (fun c => c.add_rr + c.add_rm + c.adc_rr + c.adc_rm +
        c.adcx_rr + c.adcx_rm + c.adox_rr + c.adox_rm)).sum % Iccad.M64 := by
    show ((Installation.finiTotal blocks).add_rr +
      (Installation.finiTotal blocks).add_rm +
      (Installation.finiTotal blocks).adc_rr +
      (Installation.finiTotal blocks).adc_rm +
      (Installation.finiTotal blocks).adcx_rr +
      (Installation.finiTotal blocks).adcx_rm +
      (Installation.finiTotal blocks).adox_rr +
      (Installation.finiTotal blocks).adox_rm) % Iccad.M64 = _
    rw [e1, e2, e3, e4, e5, e6, e7, e8]
    simp only [Installation.sum_map_add_split]
    simp only [hM64]
    omega
  have hSUB : (Installation.finiReport blocks).2.1 =
      (blocks.map (fun c => c.sub_rr + c.sub_rm + c.sbb_rr + c.sbb_rm)).sum %
        Iccad.M64 := by
    show ((Installation.finiTotal blocks).sub_rr +
      (Installation.finiTotal blocks).sub_rm +
      (Installation.finiTotal blocks).sbb_rr +
      (Installation.finiTotal blocks).sbb_rm) % Iccad.M64 = _
    rw [s1, s2, s3, s4]
    simp only [Installation.sum_map_add_split]
    simp only [hM64]
    omega
  have hMUL : (Installation.finiReport blocks).2.2.1 =
      (blocks.map (fun c => c.mul_rr + c.mul_rm + c.mulx_rr + c.mulx_rm)).sum %
        Iccad.M64 := by
    show ((Installation.finiTotal blocks).mul_rr +
      (Installation.finiTotal blocks).mul_rm +
      (Installation.finiTotal blocks).mulx_rr +
      (Installation.finiTotal blocks).mulx_rm) % Iccad.M64 = _
    rw [m1, m2, m3, m4]
    simp only [Installation.sum_map_add_split]
    simp only [hM64]
    omega
  have hDIV : (Installation.finiReport blocks).2.2.2 =
      (blocks.map (fun c => c.div_rr + c.div_rm)).sum % Iccad.M64 := by
    show ((Installation.finiTotal blocks).div_rr +
      (Installation.finiTotal blocks).div_rm) % Iccad.M64 = _
    rw [d1, d2]
    simp only [Installation.sum_map_add_split]
    simp only [hM64]
    omega
  refine ⟨hADD, hSUB, hMUL, hDIV, ?_, ?_, ?_, ?_⟩
  · intro h; rw [hADD, Nat.mod_eq_of_lt h]
  · intro h; rw [hSUB, Nat.mod_eq_of_lt h]
  · intro h; rw [hMUL, Nat.mod_eq_of_lt h]
  · intro h; rw [hDIV, Nat.mod_eq_of_lt h]

namespace Installation

theorem stopRegion_active (st : ThreadState) :
    (StopRegion st).active = false := by
  cases hs : st.active <;> simp [StopRegion, hs]

theorem stopRegion_cnts (st : ThreadState) :
    (StopRegion st).cnts = st.cnts := by
  cases hs : st.active <;> simp [StopRegion, hs]

end Installation

/-- C6: in WholeProgram mode the counting decision is `true` for every
per-thread state (so the region flag is never consulted — the decision is
independent of it), the counter stub therefore increments on every
classified dynamic execution, and this remains so after any sequence of
region start/stop events. -/
theorem claim_C6_wholeprogram_unconditional :
    (∀ st : Installation.ThreadState,
      Installation.Counting .WHOLE st = true) ∧
    (∀ st st2 : Installation.ThreadState,
      Installation.Counting .WHOLE st = Installation.Counting .WHOLE st2) ∧
    (∀ (st : Installation.ThreadState) (evs : List Installation.RegionEv)
        (f : Installation.Fam) (l : Installation.Locality),
      Installation.counterCall .WHOLE f l
          (evs.foldl Installation.regionStep st) =
        { evs.foldl Installation.regionStep st with
          cnts := Installation.counterBump f l
            (evs.foldl Installation.regionStep st).cnts }) := by
  refine ⟨fun st => rfl, fun st st2 => rfl, ?_⟩
  intro st evs f l
  simp [Installation.counterCall, Installation.Counting]

/-- C7: ADDRESS (flag form): the start hook makes the executing thread
Active at the target instruction (when that instruction is not itself a
RET; on a RET at the target the start hook still fires first and the RET
rule then deactivates), and any RET — in whatever call frame — leaves the
thread Inactive, whether it was Active (deactivation) or already Inactive
(no change). -/
theorem claim_C7_address_flag_region (target : Nat) (ins : Iccad.INS)
    (st : Installation.ThreadState) :
    ((Installation.StartRegion st).active = true) ∧
    (ins.address = target → ins.isRet = false →
      (Installation.addressRunStep target st ins).active = true) ∧
    (ins.isRet = true →
      (Installation.addressRunStep target st ins).active = false) := by
  refine ⟨rfl, ?_, ?_⟩
  · intro ha hr
    simp [Installation.addressRunStep, ha, hr, Installation.StartRegion]
  · intro hr
    simp [Installation.addressRunStep, hr, Installation.stopRegion_active]

/-- C7 witness: at target address 64, executing a non-RET instruction at 64
activates the thread; executing a RET elsewhere deactivates an Active
thread and leaves an Inactive thread Inactive. -/
theorem claim_C7_witness :
    (Installation.addressRunStep 64 {}
        ⟨.OTHER 0, [], [], [], [], false, false, 64, false⟩).active = true ∧
    (Installation.addressRunStep 64 ⟨{}, true⟩
        ⟨.OTHER 1, [], [], [], [], false, false, 100, true⟩).active = false ∧
    (Installation.addressRunStep 64 ⟨{}, false⟩
        ⟨.OTHER 1, [], [], [], [], false, false, 100, true⟩).active = false :=
  ⟨(claim_C7_address_flag_region 64 _ _).2.1 rfl rfl,
   (claim_C7_address_flag_region 64 _ _).2.2 rfl,
   (claim_C7_address_flag_region 64 _ _).2.2 rfl⟩

/-- C8: the depth-form AddressTriggered region (modelled from the spec,
which prescribes it although src only implements the flag form): entries
increment the integer depth, exits decrement it, Active holds iff
depth > 0, and the reentrant sequence enter, enter, exit, exit is Active
exactly from the first enter to the last exit — in particular not
prematurely Inactive between the two exits. -/
theorem claim_C8_depth_form_nesting :
    (∀ s : Installation.DepthState,
      Installation.depthStep s .enter = ⟨s.depth + 1⟩ ∧
      Installation.depthStep s .exit = ⟨s.depth - 1⟩ ∧
      Installation.depthActive s = decide (0 < s.depth)) ∧
    ((([Installation.DepthEv.enter, .enter, .exit, .exit].scanl
        Installation.depthStep ⟨0⟩).map Installation.depthActive) =
      [false, true, true, true, false]) := by
  exact ⟨fun s => ⟨rfl, rfl, rfl⟩, by decide⟩

namespace Installation

theorem markerStep_inactive {table : List String} {startM stopM : String}
    (h : table.contains startM = false) :
    ∀ (st : ThreadState) (ev : MarkerEv), st.active = false →
      (markerRunStep table startM stopM st ev).active = false ∧
      (markerRunStep table startM stopM st ev).cnts = st.cnts := by
  intro st ev ha
  cases ev with
  | rtnEnter n =>
      by_cases hc : (table.contains n && (n == stopM)) = true
      · simp only [markerRunStep]
        rw [if_pos hc]
        exact ⟨stopRegion_active st, stopRegion_cnts st⟩
      · simp only [markerRunStep]
        rw [if_neg hc]
        exact ⟨ha, rfl⟩
  | rtnReturn n =>
      by_cases hc : (table.contains n && (n == startM)) = true
      · exfalso
        simp only [Bool.and_eq_true, beq_iff_eq] at hc
        obtain ⟨hmem, heq⟩ := hc
        rw [heq] at hmem
        simp at h
        exact h (by simpa using hmem)
      · simp only [markerRunStep]
        rw [if_neg hc]
        exact ⟨ha, rfl⟩
  | arith f l =>
      have hcnt : Counting .MARKER st = false := by simp [Counting, ha]
      simp only [markerRunStep, counterCall]
      rw [if_neg (by simp [hcnt])]
      exact ⟨ha, rfl⟩

theorem markerFold_inactive {table : List String} {startM stopM : String}
    (h : table.contains startM = false) :
    ∀ (trace : List MarkerEv) (st : ThreadState), st.active = false →
      (trace.foldl (markerRunStep table startM stopM) st).active = false ∧
      (trace.foldl (markerRunStep table startM stopM) st).cnts = st.cnts := by
  intro trace
  induction trace with
  | nil => intro st ha; exact ⟨ha, rfl⟩
  | cons ev tr ih =>
      intro st ha
      simp only [List.foldl_cons]
      obtain ⟨h1, h2⟩ := markerStep_inactive h st ev ha
      obtain ⟨h3, h4⟩ := ih _ h1
      exact ⟨h3, by rw [h4, h2]⟩

theorem markerStep_keeps_active {table : List String} {startM stopM : String}
    (h : table.contains stopM = false) :
    ∀ (st : ThreadState) (ev : MarkerEv), st.active = true →
      (markerRunStep table startM stopM st ev).active = true := by
  intro st ev ha
  cases ev with
  | rtnEnter n =>
      by_cases hc : (table.contains n && (n == stopM)) = true
      · exfalso
        simp only [Bool.and_eq_true, beq_iff_eq] at hc
        obtain ⟨hmem, heq⟩ := hc
        rw [heq] at hmem
        simp at h
        exact h (by simpa using hmem)
      · simp only [markerRunStep]
        rw [if_neg hc]
        exact ha
  | rtnReturn n =>
      by_cases hc : (table.contains n && (n == startM)) = true
      · simp only [markerRunStep]
        rw [if_pos hc]
        rfl
      · simp only [markerRunStep]
        rw [if_neg hc]
        exact ha
  | arith f l =>
      cases hcnt : Counting .MARKER st with
      | true =>
          simp only [markerRunStep, counterCall]
          rw [if_pos hcnt]
          exact ha
      | false =>
          simp only [markerRunStep, counterCall]
          rw [if_neg (by simp [hcnt])]
          exact ha

theorem markerFold_keeps_active {table : List String} {startM stopM : String}
    (h : table.contains stopM = false) :
    ∀ (trace : List MarkerEv) (st : ThreadState), st.active = true →
      (trace.foldl (markerRunStep table startM stopM) st).active = true := by
  intro trace
  induction trace with
  | nil => intro st ha; exact ha
  | cons ev tr ih =>
      intro st ha
      simp only [List.foldl_cons]
      exact ih _ (markerStep_keeps_active h st ev ha)

end Installation

/-- C9 (amended): in MARKER mode an unresolved START symbol means the
region never activates: from the initial thread state, any event sequence
leaves the thread Inactive with untouched (all-zero) counters, and the
final report for that thread is all zeros — the run completes and reports
rather than aborting.  An unresolved STOP symbol alone does NOT keep the
region inactive: once Active the thread stays Active forever.  The
unresolved configuration is observable only at debug verbosity ≥ 1 via the
startup mode message that echoes the configured symbol names; at the
default verbosity 0 no diagnostic at all is emitted. -/
theorem claim_C9_marker_unresolved_degraded :
    (∀ (table : List String) (startM stopM : String)
        (trace : List Installation.MarkerEv),
      table.contains startM = false →
      (trace.foldl (Installation.markerRunStep table startM stopM)
          {}).active = false ∧
      (trace.foldl (Installation.markerRunStep table startM stopM)
          {}).cnts = {} ∧
      Installation.finiReport
        [(trace.foldl (Installation.markerRunStep table startM stopM)
          {}).cnts] = (0, 0, 0, 0)) ∧
    (∀ (table : List String) (startM stopM : String)
        (st : Installation.ThreadState) (trace : List Installation.MarkerEv),
      table.contains stopM = false → st.active = true →
      (trace.foldl (Installation.markerRunStep table startM stopM)
          st).active = true) ∧
    (∀ (dbg : Nat) (table : List String) (startM stopM : String), 1 ≤ dbg →
      Installation.markerFullLog dbg table startM stopM =
        ("MARKER mode: start=" ++ startM ++ " stop=" ++ stopM) ::
          Installation.markerRtnLog dbg table startM stopM) ∧
    (∀ (table : List String) (startM stopM : String),
      Installation.markerFullLog 0 table startM stopM = []) := by
  refine ⟨?_, ?_, ?_, ?_⟩
  · intro table startM stopM trace h
    obtain ⟨h1, h2⟩ := Installation.markerFold_inactive h trace {} rfl
    refine ⟨h1, h2, ?_⟩
    rw [h2]
    decide
  · intro table startM stopM st trace h ha
    exact Installation.markerFold_keeps_active h trace st ha
  · intro dbg table startM stopM h
    simp [Installation.markerFullLog, Installation.markerStartupLog,
      Installation.DBG, h]
  · intro table startM stopM
    simp only [Installation.markerFullLog, Installation.markerStartupLog,
      Installation.markerRtnLog, Installation.DBG]
    simp

/-- C9 counterexample: with the start marker present in the binary but the
stop marker unresolved, the region does activate (refuting "if the start or
stop symbol cannot be resolved ... the region never activates for any
thread"); moreover at the default debug verbosity 0 an unresolved start
marker produces no startup diagnostic at all. -/
theorem claim_C9_counterexample :
    (["main", "start_profiling"].contains "stop_profiling" = false ∧
     (([Installation.MarkerEv.rtnReturn "start_profiling"]).foldl
        (Installation.markerRunStep ["main", "start_profiling"]
          "start_profiling" "stop_profiling") {}).active = true) ∧
    (["main"].contains "start_profiling" = false ∧
     Installation.markerFullLog 0 ["main"] "start_profiling"
       "stop_profiling" = []) := by
  exact ⟨⟨by decide, by decide⟩, ⟨by decide, by decide⟩⟩

/-- C9 witness: the amended theorem applied to the concrete unresolved
start marker "start_profiling" with routine table ["main"]: after routine
activity and an arithmetic execution the thread is still Inactive with an
all-zero report, and at verbosity 0 the log is empty. -/
theorem claim_C9_witness :
    (([Installation.MarkerEv.rtnEnter "main",
       Installation.MarkerEv.rtnReturn "start_profiling",
       Installation.MarkerEv.arith .ADD .RegReg].foldl
        (Installation.markerRunStep ["main"] "start_profiling"
          "stop_profiling") {}).active = false ∧
     Installation.finiReport
       [([Installation.MarkerEv.rtnEnter "main",
          Installation.MarkerEv.rtnReturn "start_profiling",
          Installation.MarkerEv.arith .ADD .RegReg].foldl
           (Installation.markerRunStep ["main"] "start_profiling"
             "stop_profiling") {}).cnts] = (0, 0, 0, 0)) ∧
    Installation.markerFullLog 0 ["main"] "start_profiling"
      "stop_profiling" = [] := by
  have h := claim_C9_marker_unresolved_degraded
  refine ⟨⟨?_, ?_⟩, h.2.2.2 ["main"] "start_profiling" "stop_profiling"⟩
  · exact (h.1 ["main"] "start_profiling" "stop_profiling" _ (by decide)).1
  · exact (h.1 ["main"] "start_profiling" "stop_profiling" _ (by decide)).2.2

/-- C10: in both tools the stack-register test matches exactly the full
64-bit identities RSP and RBP; the narrower stack-pointer/frame-pointer
forms (ESP, EBP, SP, BP, SPL, BPL) are not stack registers for it, so an
instruction touching them is excluded on stack grounds only if the memory
access itself is flagged as a stack read or stack write (or RSP/RBP also
appears), as the TouchesStack characterizations state. -/
theorem claim_C10_stack_register_exclusion :
    (∀ r : Iccad.Reg,
      Int64Ops.IsStackReg r = true ↔ (r = .RSP ∨ r = .RBP)) ∧
    (∀ r : Iccad.Reg,
      Installation.IsStack r = true ↔ (r = .RSP ∨ r = .RBP)) ∧
    (Int64Ops.IsStackReg .ESP = false ∧ Int64Ops.IsStackReg .EBP = false ∧
     Int64Ops.IsStackReg .SP = false ∧ Int64Ops.IsStackReg .BP = false ∧
     Int64Ops.IsStackReg .SPL = false ∧ Int64Ops.IsStackReg .BPL = false) ∧
    (∀ ins : Iccad.INS,
      Int64Ops.TouchesStack ins = true ↔
        ((∃ r ∈ ins.regReads, r = Iccad.Reg.RSP ∨ r = Iccad.Reg.RBP) ∨
         (∃ r ∈ ins.regWrites, r = Iccad.Reg.RSP ∨ r = Iccad.Reg.RBP) ∨
         ins.isStackRead = true ∨ ins.isStackWrite = true)) ∧
    (∀ ins : Iccad.INS,
      Installation.TouchesStack ins = true ↔
        ((∃ r ∈ ins.regReads, r = Iccad.Reg.RSP ∨ r = Iccad.Reg.RBP) ∨
         (∃ r ∈ ins.regWrites, r = Iccad.Reg.RSP ∨ r = Iccad.Reg.RBP) ∨
         ins.isStackRead = true ∨ ins.isStackWrite = true)) := by
  refine ⟨?_, ?_, ?_, ?_, ?_⟩
  · intro r
    cases r <;> simp [Int64Ops.IsStackReg]
  · intro r
    cases r <;> simp [Installation.IsStack]
  · exact ⟨rfl, rfl, rfl, rfl, rfl, rfl⟩
  · intro ins
    simp [Int64Ops.TouchesStack, Int64Ops.kExcludeStack, Int64Ops.IsStackReg,
      List.any_eq_true, or_assoc]
  · intro ins
    simp [Installation.TouchesStack, Installation.IsStack, List.any_eq_true,
      or_assoc]

/-- C10 witness: ESP is not a stack register for the exclusion, and an
instruction reading ESP with no stack-flagged memory access does not touch
the stack; RSP read does. -/
theorem claim_C10_witness :
    Int64Ops.IsStackReg Iccad.Reg.ESP = false ∧
    Int64Ops.TouchesStack
      ⟨.ADD, [], [Iccad.Reg.ESP], [Iccad.Reg.gr32 0], [],
       false, false, 0, false⟩ = false ∧
    Int64Ops.TouchesStack
      ⟨.ADD, [], [Iccad.Reg.RSP], [Iccad.Reg.gr64 0], [],
       false, false, 0, false⟩ = true := by
  refine ⟨claim_C10_stack_register_exclusion.2.2.1.1, ?_, ?_⟩
  · have h := (claim_C10_stack_register_exclusion.2.2.2.1
      ⟨.ADD, [], [Iccad.Reg.ESP], [Iccad.Reg.gr32 0], [],
       false, false, 0, false⟩)
    by_cases hb : Int64Ops.TouchesStack
        ⟨.ADD, [], [Iccad.Reg.ESP], [Iccad.Reg.gr32 0], [],
         false, false, 0, false⟩ = true
    · exfalso
      rcases h.mp hb with h1 | h1 | h1 | h1 <;> revert h1 <;> decide
    · simpa using hb
  · exact (claim_C10_stack_register_exclusion.2.2.2.1 _).mpr
      (Or.inl ⟨Iccad.Reg.RSP, by decide, Or.inl rfl⟩)

/-- C1 witness: a concrete ADD descriptor reading two non-stack 64-bit
GPRs and writing one, with no memory operand, no immediate and no stack
traffic, classifies as (ADD, RegReg) in both tools. -/
theorem claim_C1_witness :
    Int64Ops.Instruction
        ⟨.ADD, [false, false], [Iccad.Reg.gr64 0, Iccad.Reg.gr64 3],
         [Iccad.Reg.gr64 0], [], false, false, 4096, false⟩ =
      some (Int64Ops.Bucket.scalar .ADD .RegReg) ∧
    Installation.InstrumentArith
        ⟨.ADD, [false, false], [Iccad.Reg.gr64 0, Iccad.Reg.gr64 3],
         [Iccad.Reg.gr64 0], [], false, false, 4096, false⟩ =
      some (Installation.Fam.ADD, Installation.Locality.RegReg) := by
  have h := claim_C1_regreg_classification
    ⟨.ADD, [false, false], [Iccad.Reg.gr64 0, Iccad.Reg.gr64 3],
     [Iccad.Reg.gr64 0], [], false, false, 4096, false⟩
    rfl (by decide) (by decide) (by decide) rfl rfl (by decide) (by decide)
  exact ⟨h.1 _ rfl, h.2.1 _ rfl⟩

/-- C2 witness: a concrete ADD descriptor with an 8-byte memory read, a
64-bit GPR write and no memory write (the load-combine form) classifies as
(ADD, RegMem) in both tools. -/
theorem claim_C2_witness :
    Int64Ops.Instruction
        ⟨.ADD, [false, false], [Iccad.Reg.gr64 0],
         [Iccad.Reg.gr64 0], [⟨true, false, 8⟩], false, false, 4096, false⟩ =
      some (Int64Ops.Bucket.scalar .ADD .RegMem) ∧
    Installation.InstrumentArith
        ⟨.ADD, [false, false], [Iccad.Reg.gr64 0],
         [Iccad.Reg.gr64 0], [⟨true, false, 8⟩], false, false, 4096, false⟩ =
      some (Installation.Fam.ADD, Installation.Locality.RegMem) := by
  have h := claim_C2_regmem_classification
    ⟨.ADD, [false, false], [Iccad.Reg.gr64 0],
     [Iccad.Reg.gr64 0], [⟨true, false, 8⟩], false, false, 4096, false⟩
    (by decide) (by decide) (by decide) rfl rfl
  exact ⟨(h.1 _ rfl).mpr (Or.inl (by decide)),
         (h.2.1 _ rfl).mpr (Or.inl (by decide))⟩

/-- C3 witness: a concrete PADDQ descriptor is never classified into a
scalar bucket. -/
theorem claim_C3_witness :
    Int64Ops.Instruction
        ⟨.PADDQ, [], [Iccad.Reg.xmm 1], [Iccad.Reg.xmm 0], [],
         false, false, 0, false⟩ ≠
      some (Int64Ops.Bucket.scalar .ADD .RegReg) :=
  (claim_C3_single_bucket.1
    ⟨.PADDQ, [], [Iccad.Reg.xmm 1], [Iccad.Reg.xmm 0], [],
     false, false, 0, false⟩ (Or.inl (by decide))).2 .ADD .RegReg

/-- C4 witness: with 4 lanes and mask bits 0b1011 the masked callback
records exactly 3 lane-ops and 1 instruction from zeroed counters; with no
mask it records 4 lane-ops. -/
theorem claim_C4_witness :
    ({} : Int64Ops.Cnts).simd_addq_ops +
        SpecSide.popcount (11 &&& (2 ^ 4 - 1)) < Iccad.M64 ∧
    (Int64Ops.SimdAddQMasked {} 4 11).simd_addq_ops = 3 ∧
    (Int64Ops.SimdAddQ {} 4).simd_addq_ops = 4 ∧
    (Int64Ops.SimdAddQMasked {} 4 11).simd_addq_insn = 1 := by
  have hpop : SpecSide.popcount (11 &&& (2 ^ 4 - 1)) = 3 := by
    have h15 : (11 : Nat) &&& (2 ^ 4 - 1) = 11 := by decide
    rw [h15]
    simp [SpecSide.popcount]
  have hlt : ({} : Int64Ops.Cnts).simd_addq_ops +
      SpecSide.popcount (11 &&& (2 ^ 4 - 1)) < Iccad.M64 := by
    rw [hpop]
    decide
  have hm := claim_C4_packed_lane_counting.2.2.2.2.1 {} 4 11 hlt (by decide)
  have hu := claim_C4_packed_lane_counting.2.2.2.2.2 {} 4 (by decide) (by decide)
  refine ⟨hlt, ?_, ?_, ?_⟩
  · rw [hm.1, hpop]
  · rw [hu.1]
  · rw [hm.2]

/-- C5 witness: two thread blocks, one with add_rr = 2 and add_rm = 1, the
other with adc_rr = 3, report ADD = 6 (= 2 + 1 + 3) and DIV = 0. -/
theorem claim_C5_witness :
    (Installation.finiReport
      [{ add_rr := 2, add_rm := 1 }, { adc_rr := 3 }]).1 = 6 ∧
    (Installation.finiReport
      [{ add_rr := 2, add_rm := 1 }, { adc_rr := 3 }]).2.2.2 = 0 := by
  have h := claim_C5_aggregation_report
    [{ add_rr := 2, add_rm := 1 }, { adc_rr := 3 }]
  constructor
  · have hx := h.2.2.2.2.1 (by decide)
    rw [hx]
    decide
  · have hx := h.2.2.2.2.2.2.2 (by decide)
    rw [hx]
    decide
